import Mathlib

/-!
Verification of the GSEApy numeric core (`gseapy/algorithm.py`).

The source performs NumPy floating-point arithmetic.  Where the claims hinge
on IEEE special values (division by zero producing `inf`, `0/0` and empty-slice
means producing `nan`, comparisons with `nan` evaluating to false), we model a
NumPy floating-point value by the type `NF`: either `nan`, `+inf`, `-inf`, or a
finite rational.  Rounding is not modelled (it is irrelevant to every claim);
all finite arithmetic is exact rational arithmetic.

Python-level floats (in `gsea_significance`'s FDR loop) raise
`ZeroDivisionError` instead of producing `inf`; that part is modelled with
explicit zero tests mirroring the source's `try/except`.

External collaborators are modelled as parameters:
  * `numpy.random.RandomState` is an opaque deterministic stream of
    permutations, passed as a function from call counter and length to an
    index list (`rho : Nat -> Nat -> List Nat`); pipeline entry points take a
    seeded family `rng : Nat -> Nat -> Nat -> List Nat` applied to the seed,
    mirroring `rs = np.random.RandomState(seed)`.
  * `numpy.sqrt` and `numpy.log2` are deterministic functions
    `sqrtFn log2Fn : Q -> Q`; theorems that need concrete square roots
    hypothesise the (true) IEEE values at the few arguments that occur.
-/

/-- A NumPy double: `nan`, the two infinities, or a finite (exact) rational. -/
inductive NF where
  | nan : NF
  | inf : NF
  | ninf : NF
  | fin : ℚ → NF
deriving DecidableEq

/-- IEEE negation. -/
def nfNeg : NF → NF
  | .nan => .nan
  | .inf => .ninf
  | .ninf => .inf
  | .fin q => .fin (-q)

/-- IEEE absolute value (`np.abs`). -/
def nfAbs : NF → NF
  | .nan => .nan
  | .inf => .inf
  | .ninf => .inf
  | .fin q => .fin |q|

/-- IEEE addition (exact on finite values). -/
def nfAdd : NF → NF → NF
  | .nan, _ => .nan
  | _, .nan => .nan
  | .inf, .ninf => .nan
  | .ninf, .inf => .nan
  | .inf, _ => .inf
  | _, .inf => .inf
  | .ninf, _ => .ninf
  | _, .ninf => .ninf
  | .fin a, .fin b => .fin (a + b)

/-- IEEE subtraction, `a - b = a + (-b)`. -/
def nfSub (a b : NF) : NF := nfAdd a (nfNeg b)

/-- IEEE multiplication; `0 * inf = nan`. -/
def nfMul : NF → NF → NF
  | .nan, _ => .nan
  | _, .nan => .nan
  | .inf, .inf => .inf
  | .inf, .ninf => .ninf
  | .ninf, .inf => .ninf
  | .ninf, .ninf => .inf
  | .inf, .fin b => if 0 < b then .inf else if b < 0 then .ninf else .nan
  | .fin a, .inf => if 0 < a then .inf else if a < 0 then .ninf else .nan
  | .ninf, .fin b => if 0 < b then .ninf else if b < 0 then .inf else .nan
  | .fin a, .ninf => if 0 < a then .ninf else if a < 0 then .inf else .nan
  | .fin a, .fin b => .fin (a * b)

/-- NumPy (IEEE) division: `x/0` is `±inf` for `x ≠ 0` and `0/0 = nan`
(NumPy emits a RuntimeWarning, not an exception).  Signed zeros are not
modelled: the literal zero is treated as `+0`. -/
def nfDiv : NF → NF → NF
  | .nan, _ => .nan
  | _, .nan => .nan
  | .inf, .inf => .nan
  | .inf, .ninf => .nan
  | .ninf, .inf => .nan
  | .ninf, .ninf => .nan
  | .inf, .fin b => if 0 ≤ b then .inf else .ninf
  | .ninf, .fin b => if 0 ≤ b then .ninf else .inf
  | .fin _, .inf => .fin 0
  | .fin _, .ninf => .fin 0
  | .fin a, .fin b =>
      if b = 0 then (if a = 0 then .nan else if 0 < a then .inf else .ninf)
      else .fin (a / b)

/-- IEEE `<`: every comparison against `nan` is false. -/
def nfLt : NF → NF → Bool
  | .nan, _ => false
  | _, .nan => false
  | .ninf, .ninf => false
  | .ninf, _ => true
  | _, .ninf => false
  | .inf, _ => false
  | .fin _, .inf => true
  | .fin a, .fin b => decide (a < b)

/-- IEEE `≤`: every comparison against `nan` is false. -/
def nfLe : NF → NF → Bool
  | .nan, _ => false
  | _, .nan => false
  | .ninf, _ => true
  | _, .inf => true
  | .inf, _ => false
  | .fin _, .ninf => false
  | .fin a, .fin b => decide (a ≤ b)

/-- IEEE `≥`. -/
def nfGe (a b : NF) : Bool := nfLe b a

/-- IEEE `>`. -/
def nfGt (a b : NF) : Bool := nfLt b a

/-- `np.maximum` of two values: propagates `nan` (as the `np.max` reduction does). -/
def nfMaxNp (a b : NF) : NF := if a = .nan ∨ b = .nan then .nan else if nfLt a b then b else a

/-- `np.minimum` of two values: propagates `nan`. -/
def nfMinNp (a b : NF) : NF := if a = .nan ∨ b = .nan then .nan else if nfLt b a then b else a

/-- `np.sum` over a 1-d slice. -/
def nfSum (l : List NF) : NF := l.foldl nfAdd (.fin 0)

/-- `np.max` over a 1-d slice (the empty case never arises: gene lists are nonempty). -/
def nfMaxList : List NF → NF
  | [] => .nan
  | x :: xs => xs.foldl nfMaxNp x

/-- `np.min` over a 1-d slice. -/
def nfMinList : List NF → NF
  | [] => .nan
  | x :: xs => xs.foldl nfMinNp x

/-- `np.mean` over a 1-d slice; the mean of an empty slice is `nan`
(NumPy emits a RuntimeWarning, not an exception). -/
def npMean (l : List NF) : NF :=
  if l.length = 0 then .nan else nfDiv (nfSum l) (.fin (l.length : ℚ))

/-- `np.cumsum` with explicit accumulator. -/
def nfCumsumFrom (s : NF) : List NF → List NF
  | [] => []
  | x :: xs => let s2 := nfAdd s x; s2 :: nfCumsumFrom s2 xs

/-- `np.cumsum` over a 1-d slice. -/
def nfCumsum (l : List NF) : List NF := nfCumsumFrom (.fin 0) l

/-- Boolean indicator cast to a number (NumPy `.astype` / implicit bool arithmetic). -/
def bInd (b : Bool) : ℚ := if b then 1 else 0

/-- `np.flatnonzero` of a boolean vector, as `.tolist()`. -/
def flatnonzero (tag : List Bool) : List ℕ :=
  (tag.enum.filter (fun x => x.2)).map (fun x => x.1)

/-!
## `enrichment_score` (scalar engine, `esnull=None` path)

Translation of `algorithm.py` lines 41-82 for the observed-statistics path
(the `esnull` gene-list-permutation branch is dead in the live pipeline, which
uses the tensor engine for null distributions).  The weighting exponent is
modelled as a natural number (the source allows float exponents such as 1.5
via float `**`; no claim involves a fractional exponent).
-/

/-- `correl_vector` after the `weighted_score_type` branch (lines 48-51):
all ones for exponent 0, else `np.abs(correl_vector)**p`. -/
def weightCorrel (p : ℕ) (N : ℕ) (correl : List ℚ) : List ℚ :=
  if p = 0 then List.replicate N 1 else correl.map (fun c => |c| ^ p)

/-- The per-position summand of the running sum (line 75):
`tag_indicator * correl_vector * norm_tag - no_tag_indicator * norm_no_tag`,
with `norm_tag = 1.0/sum_correl_tag` and `norm_no_tag = 1.0/Nmiss`
(lines 67-73; the divisions follow NumPy semantics, producing `inf`/`nan`
on zero denominators rather than raising). -/
def esTerms (gene_list gene_set : List ℕ) (p : ℕ) (correl : List ℚ) : List NF :=
  let N := gene_list.length
  let tag := gene_list.map (fun g => gene_set.contains g)
  let cv := weightCorrel p N correl
  let sumCorrelTag : ℚ := (List.zipWith (fun t c => bInd t * c) tag cv).foldl (· + ·) 0
  let Nhint : ℕ := (tag.filter id).length
  let Nmiss : ℚ := (N : ℚ) - (Nhint : ℚ)
  let normTag := nfDiv (.fin 1) (.fin sumCorrelTag)
  let normNoTag := nfDiv (.fin 1) (.fin Nmiss)
  List.zipWith
    (fun t c => nfSub (nfMul (.fin (bInd t * c)) normTag) (nfMul (.fin (1 - bInd t)) normNoTag))
    tag cv

/-- `enrichment_score` (lines 41-82, `esnull=None`): returns
`(es, hit_ind, RES)` with `es` the running-sum value of largest magnitude. -/
def enrichment_score (gene_list gene_set : List ℕ) (p : ℕ) (correl : List ℚ) :
    NF × List ℕ × List NF :=
  let tag := gene_list.map (fun g => gene_set.contains g)
  let hit_ind := flatnonzero tag
  let RES := nfCumsum (esTerms gene_list gene_set p correl)
  let maxES := nfMaxList RES
  let minES := nfMinList RES
  let es := if nfGt (nfAbs maxES) (nfAbs minES) then maxES else minES
  (es, hit_ind, RES)

/-!
## `enrichment_score_tensor` (batched engine, lines 84-178)

`gene_mat` is duck-typed in the source: a 1-d array of gene names
(prerank/ssGSEA, tag permutation) or a 2-d `(K+1, N)` matrix of gene names
(phenotype permutation, rows already shuffled).  We model the dispatch on
`ndim` by a sum type carrying the matching correlation data.

The `weighted_score_type == 0` branch (line 113-115) executes
`cor_mat = np.repeat(1, N)` with `N` not yet assigned (it is first assigned
at line 128, making it local to the whole function), so every call with
exponent 0 raises `UnboundLocalError`; we model Python-level failures by
`Except PyError`.
-/

/-- Python-level failures of the numeric core. -/
inductive PyError where
  | unboundLocal : PyError
  | typeErr : PyError
  | sysExit : PyError
deriving DecidableEq

/-- Gene-order input of `enrichment_score_tensor`: 1-d (one ranking and
one correlation vector) or 2-d (a gene-order row and a correlation row per
replicate). -/
inductive GeneMat where
  | one (genes : List ℕ) (cor : List ℚ) : GeneMat
  | two (genes : List (List ℕ)) (cor : List (List ℚ)) : GeneMat

/-- Apply a permutation given as an index list (the model of one
`rs.shuffle` outcome) to a list. -/
def applyPerm (idx : List ℕ) (l : List α) : List α := idx.filterMap (fun i => l.get? i)

/-- Insert into a sorted list of keys (helper for `sorted(...)`). -/
def insertNat (x : ℕ) : List ℕ → List ℕ
  | [] => [x]
  | y :: ys => if x ≤ y then x :: y :: ys else y :: insertNat x ys

/-- Python `sorted` on the gene-set names (modelled as naturals). -/
def sortNat (l : List ℕ) : List ℕ := l.foldr insertNat []

/-- `gene_sets[key]`: look a gene set up by name in the gmt mapping. -/
def lookupSet (gmt : List (ℕ × List ℕ)) (k : ℕ) : List ℕ :=
  ((gmt.find? (fun pr => pr.1 == k)).map Prod.snd).getD []

/-- One `(gene set, replicate)` row of `REStensor` (lines 137-166):
`rank_alpha = (tag*|cor|)**p`, then
`cumsum(rank_alpha/P_GW_denominator - no_tag/P_NG_denominator)`, optionally
divided by `len(keys_sorted)` when `scale` is set.  `cor` is the row of
`np.abs(cor_mat)` (the `abs` is applied by the caller, as at line 123).
Zero denominators follow NumPy semantics (`nan`/`inf`). -/
def tensorRow (p : ℕ) (cor : List ℚ) (tag : List Bool) (scale : Bool) (lenKeysSorted : ℕ) :
    List NF :=
  let rankAlpha : List ℚ := List.zipWith (fun t c => (bInd t * c) ^ p) tag cor
  let noTag : List ℚ := tag.map (fun t => 1 - bInd t)
  let pgw : ℚ := rankAlpha.foldl (· + ·) 0
  let png : ℚ := noTag.foldl (· + ·) 0
  let terms := List.zipWith
    (fun a nt => nfSub (nfDiv (.fin a) (.fin pgw)) (nfDiv (.fin nt) (.fin png))) rankAlpha noTag
  let res := nfCumsum terms
  if scale then res.map (fun x => nfDiv x (.fin (lenKeysSorted : ℚ))) else res

/-- Aggregation over gene positions (lines 167-173): sum for ssGSEA
(`single=True`), signed extremum of largest magnitude for GSEA. -/
def tensorAggregate (single : Bool) (res : List NF) : NF :=
  if single then nfSum res
  else
    let esmax := nfMaxList res
    let esmin := nfMinList res
    if nfGt (nfAbs esmax) (nfAbs esmin) then esmax else esmin

/-- `enrichment_score_tensor` (lines 84-178).  `rho i n` models the result of
the `i`-th `rs.shuffle` call on a length-`n` axis (an index permutation); the
1-d branch shuffles replicate `r < nperm` of gene set `m` at call index
`m*nperm + r` (the `np.apply_along_axis` iteration order), the 2-d branch
makes no `rs` calls.  Returns `(es, esnull, hit_ind, RES)`, sliced exactly as
the source slices `esmatrix` and `REStensor` (lines 175-176): the last entry
along the second axis of `esmatrix` and the last slice of the third axis of
`REStensor` — which for the 2-d branch's `(K+1, N, M)` tensor layout selects
the last *gene set*, not the observed replicate. -/
def enrichment_score_tensor (gene_mat : GeneMat) (gmt : List (ℕ × List ℕ)) (p : ℕ)
    (nperm : ℕ) (scale single : Bool) (rho : ℕ → ℕ → List ℕ) :
    Except PyError (List NF × List (List NF) × List (List ℕ) × List (List NF)) :=
  let keys := sortNat (gmt.map Prod.fst)
  if p = 0 then
    -- line 115: `cor_mat = np.repeat(1, N)` with `N` referenced before assignment
    .error .unboundLocal
  else
    match gene_mat with
    | .one genes cor =>
        -- ssGSEA / prerank: M gene sets by N genes by (nperm+1) replicates
        let N := genes.length
        let corAbs := cor.map (fun c => |c|)
        let tags : List (List Bool) :=
          keys.map (fun k => genes.map (fun g => (lookupSet gmt k).contains g))
        let hit_ind : List (List ℕ) := tags.map flatnonzero
        -- resTensor[m][r]: replicate r of gene set m (last replicate unshuffled)
        let resTensor : List (List (List NF)) :=
          (List.range tags.length).map (fun m =>
            let tag := tags.getD m []
            (List.range (nperm + 1)).map (fun r =>
              let stag := if r < nperm then applyPerm (rho (m * nperm + r) N) tag else tag
              tensorRow p corAbs stag scale N))
        let esmatrix : List (List NF) := resTensor.map (fun row => row.map (tensorAggregate single))
        let es := esmatrix.map (fun row => row.getLastD (.fin 0))
        let esnull := esmatrix.map (fun row => row.dropLast)
        let RES := resTensor.map (fun row => (row.getLastD []))
        .ok (es, esnull, hit_ind, RES)
    | .two genesMat corMat =>
        -- GSEA phenotype permutation; np.dstack yields layout (K+1, N, M):
        -- index [i][j][k] = replicate i, gene position j, gene set k.
        -- We hold the per-replicate, per-set slices as [i][k] over genes j.
        let corAbs := corMat.map (fun row => row.map (fun c => |c|))
        let L := genesMat.length  -- len(keys_sorted) = K+1 rows (scale divisor)
        -- perm_tag_tensor[:,:,-1]: the last gene set's indicator, per replicate
        let lastTags : List (List Bool) :=
          genesMat.map (fun grow => grow.map (fun g => (lookupSet gmt (keys.getLastD 0)).contains g))
        let hit_ind : List (List ℕ) := lastTags.map flatnonzero
        -- resTensor[i][k]: RES over gene positions for replicate i, gene set k
        let resTensor : List (List (List NF)) :=
          (List.zip genesMat corAbs).map (fun rowpr =>
            keys.map (fun k =>
              let tag := rowpr.1.map (fun g => (lookupSet gmt k).contains g)
              tensorRow p rowpr.2 tag scale L))
        let esmatrix : List (List NF) := resTensor.map (fun row => row.map (tensorAggregate single))
        -- es = esmatrix[:,-1]; esnull = esmatrix[:,:-1]  (second axis = gene sets here)
        let es := esmatrix.map (fun row => row.getLastD (.fin 0))
        let esnull := esmatrix.map (fun row => row.dropLast)
        -- RES = REStensor[:,:,-1]: per replicate, the last gene set's curve
        let RES := resTensor.map (fun row => (row.getLastD []))
        .ok (es, esnull, hit_ind, RES)

/-!
## `rank_metric_tensor` (lines 181-232) and `ranking_metric` (lines 247-317)

Real-valued metric computations.  The square root and base-2 logarithm of
NumPy are modelled as parameters `sqrtFn log2Fn : Q -> Q` (deterministic
external functions); claims needing concrete values hypothesise them.
Rational division by zero here follows Lean's `x/0 = 0` convention — NumPy
would produce `nan`/`inf`; no claim exercises a zero-variance or
empty-class denominator through these two functions.
-/

/-- The five supported ranking statistics (an unknown method name makes the
source call `sys.exit`; the enum makes the dispatch total). -/
inductive RankMethod where
  | signal_to_noise : RankMethod
  | t_test : RankMethod
  | ratio_of_classes : RankMethod
  | diff_of_classes : RankMethod
  | log2_ratio_of_classes : RankMethod
deriving DecidableEq

/-- Mean of a rational list (`np.mean`; empty case gives `0` where NumPy
gives `nan` — unexercised). -/
def meanQ (l : List ℚ) : ℚ := l.foldl (· + ·) 0 / (l.length : ℚ)

/-- Population variance (`np.std(...)**2`, `ddof=0`). -/
def varQ (l : List ℚ) : ℚ := meanQ (l.map (fun x => (x - meanQ l) ^ 2))

/-- Sample variance (pandas `std`, `ddof=1`; a single observation gives `0`
where pandas gives `nan` — unexercised). -/
def varQ1 (l : List ℚ) : ℚ :=
  (l.map (fun x => (x - meanQ l) ^ 2)).foldl (· + ·) 0 / ((l.length : ℚ) - 1)

/-- Select the rows of a matrix picked by a boolean mask
(`perm_cor_tensor[:, pos, :]` along the sample axis). -/
def maskRows (mask : List Bool) (rows : List (List α)) : List (List α) :=
  (List.zip mask rows).filterMap (fun pr => if pr.1 then some pr.2 else none)

/-- Column `j` of a matrix. -/
def colOf (rows : List (List ℚ)) (j : ℕ) : List ℚ := rows.filterMap (fun r => r.get? j)

/-- Per-gene means over the selected sample rows (`.mean(axis=1)`). -/
def colMeans (rows : List (List ℚ)) (M : ℕ) : List ℚ :=
  (List.range M).map (fun j => meanQ (colOf rows j))

/-- Per-gene standard deviations over the selected sample rows
(`.std(axis=1)`, population std, via `sqrtFn`). -/
def colStds (sqrtFn : ℚ → ℚ) (rows : List (List ℚ)) (M : ℕ) : List ℚ :=
  (List.range M).map (fun j => sqrtFn (varQ (colOf rows j)))

/-- Elementwise combination of two matrices. -/
def elemwise2 (f : ℚ → ℚ → ℚ) (a b : List (List ℚ)) : List (List ℚ) :=
  List.zipWith (fun ra rb => List.zipWith f ra rb) a b

/-- Elementwise combination of four matrices. -/
def elemwise4 (f : ℚ → ℚ → ℚ → ℚ → ℚ) (a b c d : List (List ℚ)) : List (List ℚ) :=
  List.zipWith (fun pra prb => List.zipWith (fun pa pb => f pa.1 pa.2 pb.1 pb.2)
    (List.zip pra.1 pra.2) (List.zip prb.1 prb.2)) (List.zip a b) (List.zip c d)

/-- Transpose of a rectangular matrix (`exprs.values.T`). -/
def transposeL (m : List (List ℚ)) : List (List ℚ) :=
  (List.range (m.headD []).length).map (fun j => m.filterMap (fun row => row.get? j))

/-- Insert an index into an index list sorted ascending by value, stably
(equal values keep the earlier index first). -/
def insertIdx (v : ℕ → ℚ) (i : ℕ) : List ℕ → List ℕ
  | [] => [i]
  | j :: rest => if v i ≤ v j then i :: j :: rest else j :: insertIdx v i rest

/-- `np.argsort` of one row (ascending; stable on ties — NumPy's default
quicksort is unstable on ties, but every tie-free case agrees). -/
def argsortQ (l : List ℚ) : List ℕ :=
  (List.range l.length).foldr (insertIdx (fun i => l.getD i 0)) []

/-- `ndarray.take(indices)` with the default `axis=None`: the array is
FLATTENED first, so a 2-d index matrix with entries `< N` always reads from
row 0 of the source matrix. -/
def takeFlat (mat : List (List α)) (ind : List (List ℕ)) : List (List α) :=
  let flat := mat.foldr (· ++ ·) []
  ind.map (fun row => row.filterMap (fun i => flat.get? i))

/-- The metric matrix of `rank_metric_tensor` (lines 197-218): per replicate
row and per gene, the chosen two-class statistic over the (possibly
shuffled) sample rows.  For `t_test` the source divides both variance terms
by `pos_cor_std.shape[1]`, the number of GENES. -/
def corMatOf (method : RankMethod) (sqrtFn log2Fn : ℚ → ℚ) (permCor : List (List (List ℚ)))
    (posMask negMask : List Bool) (M : ℕ) : List (List ℚ) :=
  let posMean := permCor.map (fun mat => colMeans (maskRows posMask mat) M)
  let negMean := permCor.map (fun mat => colMeans (maskRows negMask mat) M)
  let posStd := permCor.map (fun mat => colStds sqrtFn (maskRows posMask mat) M)
  let negStd := permCor.map (fun mat => colStds sqrtFn (maskRows negMask mat) M)
  match method with
  | .signal_to_noise => elemwise4 (fun pm nm ps ns => (pm - nm) / (ps + ns)) posMean negMean posStd negStd
  | .t_test =>
      -- denom = pos_cor_std.shape[1]  (= number of genes M, NOT a sample count)
      let denom : ℚ := (((posStd.headD []).length : ℕ) : ℚ)
      elemwise4 (fun pm nm ps ns => (pm - nm) / sqrtFn (ps ^ 2 / denom + ns ^ 2 / denom))
        posMean negMean posStd negStd
  | .ratio_of_classes => elemwise2 (fun pm nm => pm / nm) posMean negMean
  | .diff_of_classes => elemwise2 (fun pm nm => pm - nm) posMean negMean
  | .log2_ratio_of_classes => elemwise2 (fun pm nm => log2Fn (pm / nm)) posMean negMean

/-- `rank_metric_tensor` (lines 181-232): builds the `(K+1)`-replicate
correlation tensor (replicates `0..K-1` have their sample rows shuffled by
`rho r nSamples`; the last replicate is unshuffled), computes the metric
matrix, argsorts each row, and applies `ndarray.take` WITHOUT an axis
(flattened indexing) to both the tiled gene matrix and the metric matrix,
reversing each row when `ascending` is false. -/
def rank_metric_tensor (genes : List ℕ) (exprs : List (List ℚ)) (method : RankMethod)
    (permutation_num : ℕ) (pos neg : ℕ) (classes : List ℕ) (ascending : Bool)
    (rho : ℕ → ℕ → List ℕ) (sqrtFn log2Fn : ℚ → ℚ) :
    List (List ℕ) × List (List ℚ) :=
  let M := genes.length
  let expr_mat := transposeL exprs  -- samples × genes
  let nS := expr_mat.length
  let permGenes : List (List ℕ) := List.replicate (permutation_num + 1) genes
  let permCor : List (List (List ℚ)) :=
    (List.range (permutation_num + 1)).map (fun r =>
      if r < permutation_num then applyPerm (rho r nS) expr_mat else expr_mat)
  let posMask := classes.map (fun c => c == pos)
  let negMask := classes.map (fun c => c == neg)
  let corMat := corMatOf method sqrtFn log2Fn permCor posMask negMask M
  let ind := corMat.map argsortQ
  let genesMat := takeFlat permGenes ind
  let corTaken := takeFlat corMat ind
  if ascending then (genesMat, corTaken)
  else (genesMat.map List.reverse, corTaken.map List.reverse)

/-- Stable-insert for descending order by value. -/
def insertIdxDesc (v : ℕ → ℚ) (i : ℕ) : List ℕ → List ℕ
  | [] => [i]
  | j :: rest => if v j ≤ v i then i :: j :: rest else j :: insertIdxDesc v i rest

/-- `ranking_metric` (lines 247-317): the single-labelling metric over a
gene-expression frame, with pandas semantics — class means and `ddof=1`
standard deviations, and for `t_test` the denominators `len(df_std)`, again
the number of GENES.  Returns the `(gene, rank)` rows of the result frame,
sorted by rank (`sort_values(ascending=...)`; ties follow stable order — the
pandas default quicksort is unstable on ties, unexercised here). -/
def ranking_metric (genes : List ℕ) (exprs : List (List ℚ)) (method : RankMethod)
    (phenoA phenoB : ℕ) (classes : List ℕ) (ascending : Bool) (sqrtFn log2Fn : ℚ → ℚ) :
    List (ℕ × ℚ) :=
  let posMask := classes.map (fun c => c == phenoA)
  let negMask := classes.map (fun c => c == phenoB)
  let G := genes.length  -- len(df_std) = number of genes (frame rows)
  let sr : List ℚ := exprs.map (fun row =>
    let av := (List.zip posMask row).filterMap (fun pr => if pr.1 then some pr.2 else none)
    let bv := (List.zip negMask row).filterMap (fun pr => if pr.1 then some pr.2 else none)
    let mA := meanQ av
    let mB := meanQ bv
    let sA := sqrtFn (varQ1 av)
    let sB := sqrtFn (varQ1 bv)
    match method with
    | .signal_to_noise => (mA - mB) / (sA + sB)
    | .t_test => (mA - mB) / sqrtFn (sA ^ 2 / (G : ℚ) + sB ^ 2 / (G : ℚ))
    | .ratio_of_classes => mA / mB
    | .diff_of_classes => mA - mB
    | .log2_ratio_of_classes => log2Fn (mA / mB))
  let ord := if ascending then (List.range sr.length).foldr (insertIdx (fun i => sr.getD i 0)) []
             else (List.range sr.length).foldr (insertIdxDesc (fun i => sr.getD i 0)) []
  ord.filterMap (fun i => (genes.get? i).bind (fun g => (sr.get? i).map (fun v => (g, v))))

/-!
## Significance engine (lines 444-570)
-/

/-- `gsea_pval` (lines 444-462): per gene set,
`np.select([es < 0, es >= 0], [ |{null < es}|/|{null < 0}|, |{null >= es}|/|{null >= 0}| ])`.
Both choice arrays are NumPy integer counts divided with true division, so a
zero denominator yields `nan` (`0/0`) or `inf` — no exception; the `try`
with the `p = 1.0` fallback in the source is commented out.  When `es` is
`nan` neither condition holds and `np.select` returns its default `0.0`. -/
def gsea_pval (es : List NF) (esnull : List (List NF)) : List NF :=
  (List.zip es esnull).map (fun pr =>
    let e := pr.1
    let row := pr.2
    let c0 := nfDiv (.fin (((row.filter (fun x => nfLt x e)).length : ℕ) : ℚ))
                    (.fin (((row.filter (fun x => nfLt x (.fin 0))).length : ℕ) : ℚ))
    let c1 := nfDiv (.fin (((row.filter (fun x => nfGe x e)).length : ℕ) : ℚ))
                    (.fin (((row.filter (fun x => nfGe x (.fin 0))).length : ℕ) : ℚ))
    if nfLt e (.fin 0) then c0 else if nfGe e (.fin 0) then c1 else .fin 0)

/-- The NES block of `gsea_significance` (lines 500-531): per gene set,
`meanPos`/`meanNeg` over the same-signed null values (`nan` when the slice
is empty — NumPy warns, it does not raise, so the `except` fallback to `0.0`
never fires), then `np.select([es >= 0, es < 0], [es/meanPos, -es/meanNeg])`
for the observed scores and the same per-row normalizer for every null
value.  Returns `(nEnrichmentScores, nEnrichmentNulls)`. -/
def nes_part (es : List NF) (esnull : List (List NF)) : List NF × List (List NF) :=
  let meanPos := esnull.map (fun row => npMean (row.filter (fun x => nfGe x (.fin 0))))
  let meanNeg := esnull.map (fun row => npMean (row.filter (fun x => nfLt x (.fin 0))))
  let nes := (List.zip es (List.zip meanPos meanNeg)).map (fun pr =>
    if nfGe pr.1 (.fin 0) then nfDiv pr.1 pr.2.1
    else if nfLt pr.1 (.fin 0) then nfDiv (nfNeg pr.1) pr.2.2
    else .fin 0)
  let nesnull := (List.zip esnull (List.zip meanPos meanNeg)).map (fun pr =>
    pr.1.map (fun x =>
      if nfGe x (.fin 0) then nfDiv x pr.2.1
      else if nfLt x (.fin 0) then nfDiv (nfNeg x) pr.2.2
      else .fin 0))
  (nes, nesnull)

/-- `np.searchsorted(sorted l, x, side="left")`: the number of elements
below `x`.  (On the NumPy-sorted array, where `nan`s sort last, binary
search agrees with this count for every non-`nan` key, and a `nan` key also
gives 0 since no element compares below it.) -/
def ssLeft (l : List NF) (x : NF) : ℕ := (l.filter (fun v => nfLt v x)).length

/-- `np.searchsorted(sorted l, x, side="right")`: the number of elements not
above `x`.  A `nan` or `+inf` key makes every `key < a[i]` comparison false,
so binary search lands at the far end — the whole length. -/
def ssRight (l : List NF) (x : NF) : ℕ :=
  if x = NF.nan ∨ x = NF.inf then l.length else (l.filter (fun v => nfLe v x)).length

/-- The `try` body of the FDR loop (lines 559-566): Python float division,
so each zero denominator (`allPos`, `nesPos`, or `pi_obs`) raises
`ZeroDivisionError`, caught by the `except` that appends the sentinel
`1000000000.0`; otherwise `pi_norm/pi_obs` capped at `1.0`. -/
def fdrFrac (aP aH nP nH : ℕ) : ℚ :=
  if aP = 0 then 1000000000
  else if nP = 0 then 1000000000
  else
    let piNorm : ℚ := (aH : ℚ) / (aP : ℚ)
    let piObs : ℚ := (nH : ℚ) / (nP : ℚ)
    if piObs = 0 then 1000000000
    else if piNorm / piObs < 1 then piNorm / piObs else 1

/-- One iteration of the FDR loop (lines 546-566): counts over the pooled
normalized null values `nvals` and the normalized observed scores `nnes`
via `searchsorted` on their sorted copies (counting is invariant under the
sort), split on the sign of `nes` (`nan` fails `>= 0` and takes the
negative branch). -/
def fdr_one (nvals nnes : List NF) (nes : NF) : ℚ :=
  if nfGe nes (.fin 0) then
    fdrFrac (nvals.length - ssLeft nvals (.fin 0)) (nvals.length - ssLeft nvals nes)
            (nnes.length - ssLeft nnes (.fin 0)) (nnes.length - ssLeft nnes nes)
  else
    fdrFrac (ssLeft nvals (.fin 0)) (ssRight nvals nes)
            (ssLeft nnes (.fin 0)) (ssRight nnes nes)

/-- Zip four lists into a list of 4-tuples (the source's final `zip`). -/
def zip4 : List α → List β → List γ → List δ → List (α × β × γ × δ)
  | a :: as', b :: bs, c :: cs, d :: ds => (a, b, c, d) :: zip4 as' bs cs ds
  | _, _, _, _ => []

/-- `gsea_significance` (lines 488-570): nominal p-values, normalized
scores, and FDR q-values, returned as `zip(es, nes, pval, fdr)`. -/
def gsea_significance (es : List NF) (esnull : List (List NF)) :
    List (NF × NF × NF × ℚ) :=
  let pvals := gsea_pval es esnull
  let nesPair := nes_part es esnull
  let nvals := nesPair.2.foldr (· ++ ·) []
  let fdrs := nesPair.1.map (fun x => fdr_one nvals nesPair.1 x)
  zip4 es nesPair.1 pvals fdrs

/-!
## Pipeline entry points (lines 329-442)
-/

/-- The `data` argument of `gsea_compute`: an expression frame
(genes × samples) or a pre-ranked frame (gene order plus rank column). -/
inductive GSEAData where
  | frame (genes : List ℕ) (vals : List (List ℚ)) : GSEAData
  | preranked (genes : List ℕ) (ranks : List ℚ) : GSEAData

/-- The gene identifiers of a data frame (`data.index.values`). -/
def GSEAData.genes : GSEAData → List ℕ
  | .frame g _ => g
  | .preranked g _ => g

/-- `gsea_compute` (lines 329-425).  `rng seed` is the permutation stream of
`rs = np.random.RandomState(seed)`; in the phenotype branch
`rank_metric_tensor` consumes the first `n` shuffle calls and the 2-d tensor
branch makes none, in the tag-permutation branch the 1-d tensor consumes
from call 0.  Every internal `enrichment_score_tensor` call passes
`scale=False` and the `scale` parameter is never read.  Returns
`(gsea_significance(es, esnull), hit_ind, RES, subsets)`. -/
def gsea_compute (data : GSEAData) (gmt : List (ℕ × List ℕ)) (n : ℕ) (p : ℕ)
    (phenotypePerm : Bool) (method : RankMethod) (phenoPos phenoNeg : ℕ)
    (classes : List ℕ) (ascending : Bool) (seed : ℕ) (scale : Bool) (prerank : Bool)
    (rng : ℕ → ℕ → ℕ → List ℕ) (sqrtFn log2Fn : ℚ → ℚ) :
    Except PyError ((List (NF × NF × NF × ℚ)) × List (List ℕ) × List (List NF) × List ℕ) :=
  let subsets := sortNat (gmt.map Prod.fst)
  let rho := rng seed
  if phenotypePerm then
    match data with
    | .frame genes vals =>
        let rmk := rank_metric_tensor genes vals method n phenoPos phenoNeg classes
          ascending rho sqrtFn log2Fn
        (enrichment_score_tensor (.two rmk.1 rmk.2) gmt p n false false
            (fun i len => rho (n + i) len)).map
          (fun out => (gsea_significance out.1 out.2.1, out.2.2.1, out.2.2.2, subsets))
    | .preranked _ _ => .error .typeErr
  else
    let keys_sorted := data.genes  -- data.index.values, read BEFORE re-ranking
    let corVec : Except PyError (List ℚ) :=
      if prerank then
        match data with
        | .preranked _ r => .ok r
        | .frame _ _ => .error .typeErr
      else
        match data with
        | .frame genes vals =>
            .ok ((ranking_metric genes vals method phenoPos phenoNeg classes
              ascending sqrtFn log2Fn).map Prod.snd)
        | .preranked _ _ => .error .typeErr
    corVec.bind (fun cv =>
      (enrichment_score_tensor (.one keys_sorted cv) gmt p n false false rho).map
        (fun out => (gsea_significance out.1 out.2.1, out.2.2.1, out.2.2.2, subsets)))

/-- `gsea_compute_ss` (lines 427-442): single-sample GSEA over a ranked
series; calls the 1-d tensor with `single=True` and — despite taking a
`scale` parameter — passes the literal `scale=False`. -/
def gsea_compute_ss (genes : List ℕ) (vals : List ℚ) (gmt : List (ℕ × List ℕ))
    (n : ℕ) (p : ℕ) (scale : Bool) (seed : ℕ) (rng : ℕ → ℕ → ℕ → List ℕ) :
    Except PyError ((List (NF × NF × NF × ℚ)) × List (List ℕ) × List (List NF) × List ℕ) :=
  let subsets := sortNat (gmt.map Prod.fst)
  let rho := rng seed
  (enrichment_score_tensor (.one genes vals) gmt p n false true rho).map
    (fun out => (gsea_significance out.1 out.2.1, out.2.2.1, out.2.2.2, subsets))

/-- Definition following the spec's words (§4.1): the `t_test` statistic is
`(µ_pos − µ_neg) / sqrt(σ_pos²/n_pos + σ_neg²/n_neg)`, with `n_pos`/`n_neg`
the numbers of samples in the two classes, per gene row. -/
def t_test_spec (sqrtFn : ℚ → ℚ) (exprs : List (List ℚ)) (classes : List ℕ)
    (pos neg : ℕ) : List ℚ :=
  exprs.map (fun row =>
    let pv := (List.zip classes row).filterMap (fun pr => if pr.1 == pos then some pr.2 else none)
    let nv := (List.zip classes row).filterMap (fun pr => if pr.1 == neg then some pr.2 else none)
    (meanQ pv - meanQ nv) /
      sqrtFn (varQ pv / (pv.length : ℚ) + varQ nv / (nv.length : ℚ)))

/-- Decidable equality on `Except` results, for evaluating the embeddings. -/
instance [DecidableEq ε] [DecidableEq α] : DecidableEq (Except ε α) := fun x y =>
  match x, y with
  | .ok a, .ok b =>
      if h : a = b then isTrue (by rw [h]) else isFalse (fun hc => by cases hc; exact h rfl)
  | .error a, .error b =>
      if h : a = b then isTrue (by rw [h]) else isFalse (fun hc => by cases hc; exact h rfl)
  | .ok _, .error _ => isFalse (fun hc => by cases hc)
  | .error _, .ok _ => isFalse (fun hc => by cases hc)

/-- A computable stand-in for `numpy.sqrt`, used to instantiate witnesses:
it returns the exact square root at the perfect squares `0`, `1` and `4`
(the only arguments the witness evaluations reach), `0` elsewhere. -/
def sqrtPS : ℚ → ℚ := fun q => if q = 4 then 2 else if q = 1 then 1 else 0

section

-- Batteries marks the rational-arithmetic primitives irreducible; concrete
-- evaluations of the embeddings need them unfolded (the kernel unfolds them
-- regardless).
attribute [local semireducible] Rat.add Rat.sub Rat.mul Rat.inv

/-- Claim C1: on a gene list `[0,1,2]` (correlations `[3,2,1]`, weight
exponent 1) and the disjoint gene set `[5,6]`, the scalar enrichment engine
returns an empty hit-index list and raises nothing, but the enrichment score
is `nan`, not the claimed `0`: `norm_tag = 1.0/0` is `inf` and every
running-sum summand is `0 * inf = nan`, so the division-by-zero branch is
NOT guarded — it propagates as `nan` through the whole curve. -/
theorem enrichment_score_disjoint_nan :
    enrichment_score [0, 1, 2] [5, 6] 1 [3, 2, 1] =
      (NF.nan, [], [NF.nan, NF.nan, NF.nan]) := by decide

/-- Claim C2: with observed `es = [1/2]` and a null row `[-1, -2]` holding no
nonnegative value, the denominator `|{null >= 0}|` is zero and `gsea_pval`
returns `0/0 = nan` — not the claimed fallback `p = 1.0`, and not a value in
`[0, 1]` (the `try/except` that would return `1.0` is commented out in the
source). -/
theorem gsea_pval_zero_denominator_nan :
    gsea_pval [NF.fin (1/2)] [[NF.fin (-1), NF.fin (-2)]] = [NF.nan] := by decide

/-- Claim C4: with observed `es = [1/2]` and a null row `[-1/10, -1/5]`
containing no nonnegative value, `meanPos` is the mean of an empty slice
(`nan`, a NumPy warning rather than an exception, so the `except` fallback
to `0.0` never fires) and the observed NES is `nan`, not the claimed
fallback `0.0`.  The normalized null row shows the per-row normalizer
`-x/meanNeg` applied to every null value, as the claim's positive part
states. -/
theorem nes_empty_sign_mean_nan :
    nes_part [NF.fin (1/2)] [[NF.fin (-1/10), NF.fin (-1/5)]] =
      ([NF.nan], [[NF.fin (-2/3), NF.fin (-4/3)]]) := by decide

/-- Claim C5: in the two-dimensional (phenotype-permutation) mode with
`G = 2` gene sets and `K + 1 = 3` replicate rows, the tensor engine returns
an observed ES vector of length 3 (one per REPLICATE, from the last gene
set's column of the misoriented `(K+1, N, G)` tensor), a null matrix of
shape `3 × 1` (= `(K+1) × (G-1)`), and 3 hit-index lists — not one ES entry
per gene set, a `G × K` null matrix, and observed-replicate hit lists as
claimed. -/
theorem tensor_2d_shapes_wrong :
    ((enrichment_score_tensor
        (.two [[10, 20], [20, 10], [10, 20]] [[1, 2], [3, 4], [5, 6]])
        [(1, [10]), (2, [20])] 1 2 false false (fun _ _ => [])).map
      (fun out => (out.1.length, out.2.1.length, out.2.1.map List.length, out.2.2.1.length)))
      = Except.ok (3, 3, [1, 1, 1], 3) := by decide

/-- Claim C6: two genes `[10, 20]`, two samples with classes `[1, 2]`,
`diff_of_classes`, one permutation whose shuffle swaps the sample rows.
The two replicate metric rows are `[-1, 5]` (shuffled) and `[1, -5]`
(observed), so per-row descending sorting should pair the observed gene row
`[10, 20]` with `[1, -5]`; instead `ndarray.take` without an axis reads the
FLATTENED metric matrix, so every returned correlation row is drawn from
replicate 0's values and the observed row comes back as `[-1, 5]`. -/
theorem rank_metric_tensor_take_flattened :
    rank_metric_tensor [10, 20] [[1, 0], [0, 5]] .diff_of_classes 1 1 2 [1, 2] false
      (fun i len => if i = 0 then [1, 0] else List.range len) (fun _ => 0) (fun _ => 0)
      = ([[20, 10], [10, 20]], [[5, -1], [-1, 5]]) := by decide


/-- Helper: the `try` body of the FDR loop returns `min(pi_norm/pi_obs, 1)`
when all three divisions succeed, and the sentinel when `pi_obs = 0`. -/
theorem fdrFrac_cases (aP aH nP nH : ℕ) (h1 : aP ≠ 0) (h2 : nP ≠ 0) :
    (nH ≠ 0 →
      fdrFrac aP aH nP nH = min (((aH : ℚ) / (aP : ℚ)) / ((nH : ℚ) / (nP : ℚ))) 1 ∧
      0 ≤ fdrFrac aP aH nP nH ∧ fdrFrac aP aH nP nH ≤ 1) ∧
    (nH = 0 → fdrFrac aP aH nP nH = 1000000000) := by
  constructor
  · intro h3
    have hObs : ((nH : ℚ) / (nP : ℚ)) ≠ 0 := by
      apply div_ne_zero <;> exact_mod_cast ‹_›
    have hr : 0 ≤ ((aH : ℚ) / (aP : ℚ)) / ((nH : ℚ) / (nP : ℚ)) := by positivity
    unfold fdrFrac
    rw [if_neg h1, if_neg h2, if_neg hObs]
    rcases lt_or_ge (((aH : ℚ) / (aP : ℚ)) / ((nH : ℚ) / (nP : ℚ))) 1 with h | h
    · rw [if_pos h, min_eq_left h.le]
      exact ⟨rfl, hr, h.le⟩
    · rw [if_neg (not_lt.2 h), min_eq_right h]
      exact ⟨rfl, by norm_num, le_refl 1⟩
  · intro h3
    subst h3
    have hObs : ((0 : ℕ) : ℚ) / ((nP : ℚ)) = 0 := by simp
    unfold fdrFrac
    rw [if_neg h1, if_neg h2, if_pos hObs]

/-- Claim C3: for every pooled normalized null distribution `nvals`, pooled
observed distribution `nnes`, and finite normalized score `q`, whenever the
three count denominators of the FDR loop are nonzero (`allPos`, `nesPos`
and — for pi_obs > 0 — `nesHigherAndPos`), the q-value equals
`min(pi_norm/pi_obs, 1.0)` and lies in `[0, 1]`; and whenever `pi_obs = 0`
(its numerator count is zero while its denominator is not) the q-value is
the sentinel `1000000000.0`, no exception escaping the loop. -/
theorem fdr_one_qvalue (nvals nnes : List NF) (q : ℚ)
    (hA : (if 0 ≤ q then nvals.length - ssLeft nvals (NF.fin 0) else ssLeft nvals (NF.fin 0)) ≠ 0)
    (hP : (if 0 ≤ q then nnes.length - ssLeft nnes (NF.fin 0) else ssLeft nnes (NF.fin 0)) ≠ 0) :
    ((if 0 ≤ q then nnes.length - ssLeft nnes (NF.fin q) else ssRight nnes (NF.fin q)) ≠ 0 →
      fdr_one nvals nnes (NF.fin q) =
        min ((((if 0 ≤ q then nvals.length - ssLeft nvals (NF.fin q) else ssRight nvals (NF.fin q)) : ℕ) : ℚ) /
              (((if 0 ≤ q then nvals.length - ssLeft nvals (NF.fin 0) else ssLeft nvals (NF.fin 0)) : ℕ) : ℚ) /
             ((((if 0 ≤ q then nnes.length - ssLeft nnes (NF.fin q) else ssRight nnes (NF.fin q)) : ℕ) : ℚ) /
              (((if 0 ≤ q then nnes.length - ssLeft nnes (NF.fin 0) else ssLeft nnes (NF.fin 0)) : ℕ) : ℚ))) 1 ∧
      0 ≤ fdr_one nvals nnes (NF.fin q) ∧ fdr_one nvals nnes (NF.fin q) ≤ 1) ∧
    ((if 0 ≤ q then nnes.length - ssLeft nnes (NF.fin q) else ssRight nnes (NF.fin q)) = 0 →
      fdr_one nvals nnes (NF.fin q) = 1000000000) := by
  have hge : nfGe (NF.fin q) (NF.fin 0) = decide (0 ≤ q) := rfl
  by_cases h0 : 0 ≤ q
  · simp only [if_pos h0] at *
    unfold fdr_one
    rw [hge]
    simp only [h0, decide_true_eq_true, if_true]
    exact fdrFrac_cases _ _ _ _ hA hP
  · simp only [if_neg h0] at *
    unfold fdr_one
    rw [hge]
    simp only [h0, decide_false_eq_false, if_false]
    exact fdrFrac_cases _ _ _ _ hA hP

/-- Witness for the C3 theorem at `nvals = [1, -1]`, `nnes = [1/2, -1/2]`:
at `nes = 1/2` all counts are 1 and the q-value is `min(1, 1) = 1`; at
`nes = 2` the `pi_obs` numerator count is 0 and the sentinel is returned. -/
theorem fdr_one_qvalue_witness :
    fdr_one [NF.fin 1, NF.fin (-1)] [NF.fin (1/2), NF.fin (-1/2)] (NF.fin (1/2)) = 1 ∧
    fdr_one [NF.fin 1, NF.fin (-1)] [NF.fin (1/2), NF.fin (-1/2)] (NF.fin 2) = 1000000000 := by
  constructor
  · exact ((fdr_one_qvalue [NF.fin 1, NF.fin (-1)] [NF.fin (1/2), NF.fin (-1/2)] (1/2)
      (by decide) (by decide)).1 (by decide)).1.trans (by decide)
  · exact (fdr_one_qvalue [NF.fin 1, NF.fin (-1)] [NF.fin (1/2), NF.fin (-1/2)] 2
      (by decide) (by decide)).2 (by decide)

/-- Helper: zipping a list against a same-length `replicate` is a map. -/
theorem zipWith_replicate_len (f : α → β → γ) (l : List α) (b : β) :
    List.zipWith f l (List.replicate l.length b) = l.map (fun a => f a b) := by
  induction l with
  | nil => rfl
  | cons x xs ih => simp [List.replicate, ih]

/-- Helper: summing the boolean indicator counts the true positions. -/
theorem foldl_add_bInd (l : List Bool) (init : ℚ) :
    (l.map bInd).foldl (· + ·) init = init + ((l.filter id).length : ℚ) := by
  induction l generalizing init with
  | nil => simp
  | cons x xs ih =>
      cases x
      · simpa [bInd] using ih init
      · have hf : List.filter id (true :: xs) = true :: List.filter id xs := by
          simp [List.filter]
        rw [List.map_cons, List.foldl_cons, hf, List.length_cons]
        have hb : init + bInd true = init + 1 := by simp [bInd]
        rw [hb, ih]
        push_cast
        ring

/-- Helper: exponent 0 replaces the correlation vector by all ones (line 49). -/
theorem weightCorrel_zero (N : ℕ) (c : List ℚ) :
    weightCorrel 0 N c = List.replicate N 1 := by simp [weightCorrel]

/-- Claim C8: for `weighted_score_type = 0` the SCALAR engine's running-sum
summands reduce to the classic unweighted form — every tag weight is 1, a
hit contributes `1/Nhit` and a miss contributes `-1/Nmiss` (first conjunct,
for every gene list, gene set and correlation vector with `Nhit > 0` and
`Nmiss > 0`).  The TENSOR engine, however, never reaches that computation:
exponent 0 takes the `cor_mat = np.repeat(1, N)` branch with `N` not yet
assigned and raises `UnboundLocalError` (second conjunct), so the claimed
reduction holds in the scalar engine only. -/
theorem weighted_zero_classic_and_tensor_crash :
    (∀ (gl gs : List ℕ) (c : List ℚ),
      0 < ((gl.map (fun g => gs.contains g)).filter id).length →
      ((gl.map (fun g => gs.contains g)).filter id).length < gl.length →
      esTerms gl gs 0 c =
        (gl.map (fun g => gs.contains g)).map (fun t =>
          if t then NF.fin (1 / ((((gl.map (fun g => gs.contains g)).filter id).length : ℕ) : ℚ))
          else NF.fin (-(1 / ((gl.length : ℚ) -
            ((((gl.map (fun g => gs.contains g)).filter id).length : ℕ) : ℚ)))))) ∧
    enrichment_score_tensor (.one [0, 1] [1, 1]) [(5, [0])] 0 3 false false (fun _ _ => [])
      = .error .unboundLocal := by
  constructor
  · intro gl gs c h1 h2
    simp only [esTerms]
    rw [weightCorrel_zero]
    set tag := gl.map (fun g => gs.contains g) with htag
    set Nh : ℕ := (tag.filter id).length with hNh
    have hlen : gl.length = tag.length := (List.length_map _ _).symm
    rw [hlen, zipWith_replicate_len, zipWith_replicate_len]
    have hNh0 : ((Nh : ℕ) : ℚ) ≠ 0 := by exact_mod_cast h1.ne'
    have hNm0 : ((tag.length : ℚ) - ((Nh : ℕ) : ℚ)) ≠ 0 := by
      have hq : ((Nh : ℕ) : ℚ) < (tag.length : ℚ) := by exact_mod_cast (hlen ▸ h2)
      exact sub_ne_zero.2 (ne_of_gt hq)
    have hsum : ((tag.map (fun t => bInd t * 1)).foldl (· + ·) 0) = ((Nh : ℕ) : ℚ) := by
      simp only [mul_one]
      rw [foldl_add_bInd, zero_add]
    rw [hsum]
    have hfun : (fun t => nfSub (nfMul (NF.fin (bInd t * 1)) (nfDiv (NF.fin 1) (NF.fin ((Nh : ℕ) : ℚ))))
          (nfMul (NF.fin (1 - bInd t)) (nfDiv (NF.fin 1) (NF.fin ((tag.length : ℚ) - ((Nh : ℕ) : ℚ))))))
        = (fun t => if t then NF.fin (1 / ((Nh : ℕ) : ℚ))
            else NF.fin (-(1 / ((tag.length : ℚ) - ((Nh : ℕ) : ℚ))))) := by
      funext t
      cases t <;>
        simp [bInd, nfDiv, nfMul, nfSub, nfAdd, nfNeg, hNh0, hNm0]
    rw [hfun]
  · decide

/-- Witness for the C8 theorem: gene list `[0,1,2]`, gene set `[0,2]`
(`Nhit = 2`, `Nmiss = 1`), so the summands are `[1/2, -1, 1/2]`. -/
theorem weighted_zero_classic_witness :
    esTerms [0, 1, 2] [0, 2] 0 [9, 9, 9] = [NF.fin (1/2), NF.fin (-1), NF.fin (1/2)] :=
  (weighted_zero_classic_and_tensor_crash.1 [0, 1, 2] [0, 2] [9, 9, 9]
    (by decide) (by decide)).trans (by decide)

/-- Claim C7: the `t_test` statistic divides both variance terms by
`pos_cor_std.shape[1]` — the number of genes — instead of the per-class
sample counts.  Concretely: 1 gene, 4 positive samples all `10`
(mean 10, variance 0) and 4 negative samples `[0,4,0,4]` (mean 2,
variance 4): the code returns `(10-2)/sqrt((0+4)/1) = 4`, while the spec's
formula `(µp-µn)/sqrt(σp²/n_pos + σn²/n_neg) = 8/sqrt(0/4+4/4) = 8`.
(`ranking_metric` has the same flaw via `len(df_std)`.)  The hypotheses pin
the IEEE values of `sqrt` at the three perfect squares reached. -/
theorem t_test_denominator_bug (sqrtFn log2Fn : ℚ → ℚ) (rho : ℕ → ℕ → List ℕ)
    (h0 : sqrtFn 0 = 0) (h4 : sqrtFn 4 = 2) (h1 : sqrtFn 1 = 1) :
    rank_metric_tensor [7] [[10, 10, 10, 10, 0, 4, 0, 4]] .t_test 0 1 2
        [1, 1, 1, 1, 2, 2, 2, 2] false rho sqrtFn log2Fn = ([[7]], [[4]]) ∧
    t_test_spec sqrtFn [[10, 10, 10, 10, 0, 4, 0, 4]] [1, 1, 1, 1, 2, 2, 2, 2] 1 2 = [8] := by
  constructor
  · simp only [rank_metric_tensor, corMatOf]
    have hT : transposeL [[10, 10, 10, 10, 0, 4, 0, 4]]
        = [[10], [10], [10], [10], [0], [4], [0], [4]] := by decide
    rw [hT]
    have hRange : (List.range (0 + 1)).map
        (fun r => if r < 0 then applyPerm (rho r ([[10], [10], [10], [10], [0], [4], [0], [4]] : List (List ℚ)).length) [[10], [10], [10], [10], [0], [4], [0], [4]] else ([[10], [10], [10], [10], [0], [4], [0], [4]] : List (List ℚ)))
        = [[[10], [10], [10], [10], [0], [4], [0], [4]]] := by
      simp
    rw [hRange]
    rw [show ([7] : List ℕ).length = 1 from rfl]
    simp only [List.map_cons, List.map_nil]
    simp only [Bool.false_eq_true, if_false]
    have hMP : maskRows [1 == 1, 1 == 1, 1 == 1, 1 == 1, 2 == 1, 2 == 1, 2 == 1, 2 == 1]
        ([[10],[10],[10],[10],[0],[4],[0],[4]] : List (List ℚ)) = [[10],[10],[10],[10]] := by decide
    have hMN : maskRows [1 == 2, 1 == 2, 1 == 2, 1 == 2, 2 == 2, 2 == 2, 2 == 2, 2 == 2]
        ([[10],[10],[10],[10],[0],[4],[0],[4]] : List (List ℚ)) = [[0],[4],[0],[4]] := by decide
    rw [hMP, hMN]
    have hCM1 : colMeans [[10],[10],[10],[10]] 1 = [10] := by decide
    have hCM2 : colMeans [[0],[4],[0],[4]] 1 = [2] := by decide
    have hCS1 : colStds sqrtFn [[10],[10],[10],[10]] 1 = [sqrtFn 0] := by
      simp only [colStds]
      rw [show List.range 1 = [0] from rfl]
      simp only [List.map_cons, List.map_nil]
      rw [show varQ (colOf [[10],[10],[10],[10]] 0) = 0 from by decide]
    have hCS2 : colStds sqrtFn [[0],[4],[0],[4]] 1 = [sqrtFn 4] := by
      simp only [colStds]
      rw [show List.range 1 = [0] from rfl]
      simp only [List.map_cons, List.map_nil]
      rw [show varQ (colOf [[0],[4],[0],[4]] 0) = 4 from by decide]
    rw [hCM1, hCM2, hCS1, hCS2, h0, h4]
    simp only [elemwise4, List.zip_cons_cons, List.zip_nil_left, List.zip_nil_right,
      List.zipWith_cons_cons, List.zipWith_nil_left, List.zipWith_nil_right,
      List.headD_cons, List.length_cons, List.length_nil]
    norm_num [h4]
    decide
  · simp only [t_test_spec, List.map_cons, List.map_nil]
    have hPV : (List.zip ([1, 1, 1, 1, 2, 2, 2, 2] : List ℕ) ([10, 10, 10, 10, 0, 4, 0, 4] : List ℚ)).filterMap
        (fun pr => if pr.1 == 1 then some pr.2 else none) = [10, 10, 10, 10] := by decide
    have hNV : (List.zip ([1, 1, 1, 1, 2, 2, 2, 2] : List ℕ) ([10, 10, 10, 10, 0, 4, 0, 4] : List ℚ)).filterMap
        (fun pr => if pr.1 == 2 then some pr.2 else none) = [0, 4, 0, 4] := by decide
    rw [hPV, hNV]
    rw [show meanQ [10, 10, 10, 10] = 10 from by decide,
        show meanQ [0, 4, 0, 4] = 2 from by decide,
        show varQ [10, 10, 10, 10] = 0 from by decide,
        show varQ [0, 4, 0, 4] = 4 from by decide]
    norm_num [h1]

/-- Witness for the C7 theorem: instantiating `sqrt` by the computable
`sqrtPS`, which agrees with IEEE sqrt at the three arguments reached. -/
theorem t_test_denominator_bug_witness :
    rank_metric_tensor [7] [[10, 10, 10, 10, 0, 4, 0, 4]] .t_test 0 1 2
        [1, 1, 1, 1, 2, 2, 2, 2] false (fun _ _ => []) sqrtPS (fun _ => 0) = ([[7]], [[4]]) ∧
    t_test_spec sqrtPS [[10, 10, 10, 10, 0, 4, 0, 4]] [1, 1, 1, 1, 2, 2, 2, 2] 1 2 = [8] :=
  t_test_denominator_bug sqrtPS (fun _ => 0) (fun _ _ => [])
    (by decide) (by decide) (by decide)

/-- Claim C9: determinism.  Both pipeline entry points construct their
randomness as `rs = np.random.RandomState(seed)` — modelled by applying the
deterministic generator family `rng` to the seed — and pass that `rs`
explicitly to every shuffling step (no worker pool is live, no default
random state is consulted).  Hence two runs with identical data, gene sets,
configuration and equal seeds return identical results — null distributions,
ES, NES, p and FDR included — for EVERY deterministic generator model,
square-root and log2 function. -/
theorem gsea_compute_deterministic (rng : ℕ → ℕ → ℕ → List ℕ) (sqrtFn log2Fn : ℚ → ℚ)
    (data : GSEAData) (gmt : List (ℕ × List ℕ)) (n p : ℕ) (phen : Bool)
    (method : RankMethod) (pp pn : ℕ) (classes : List ℕ) (asc scale prerank : Bool)
    (genes : List ℕ) (vals : List ℚ) (s1 s2 : ℕ) (h : s1 = s2) :
    gsea_compute data gmt n p phen method pp pn classes asc s1 scale prerank rng sqrtFn log2Fn
      = gsea_compute data gmt n p phen method pp pn classes asc s2 scale prerank rng sqrtFn log2Fn ∧
    gsea_compute_ss genes vals gmt n p scale s1 rng
      = gsea_compute_ss genes vals gmt n p scale s2 rng := by
  subst h
  exact ⟨rfl, rfl⟩

/-- Witness for the C9 theorem at a concrete pre-ranked run with seed 5. -/
theorem gsea_compute_deterministic_witness :
    gsea_compute (.preranked [0, 1] [2, 1]) [(3, [0])] 1 1 false .signal_to_noise 0 0 []
        false 5 false true (fun _ _ len => List.range len) (fun _ => 0) (fun _ => 0)
      = gsea_compute (.preranked [0, 1] [2, 1]) [(3, [0])] 1 1 false .signal_to_noise 0 0 []
        false 5 false true (fun _ _ len => List.range len) (fun _ => 0) (fun _ => 0) ∧
    gsea_compute_ss [0, 1] [2, 1] [(3, [0])] 1 1 false 5 (fun _ _ len => List.range len)
      = gsea_compute_ss [0, 1] [2, 1] [(3, [0])] 1 1 false 5 (fun _ _ len => List.range len) :=
  gsea_compute_deterministic (fun _ _ len => List.range len) (fun _ => 0) (fun _ => 0)
    (.preranked [0, 1] [2, 1]) [(3, [0])] 1 1 false .signal_to_noise 0 0 [] false false true
    [0, 1] [2, 1] 5 5 rfl

/-- Claim C10: the `scale` parameter of `gsea_compute` is never read and
`gsea_compute_ss` passes the literal `scale=False` to the tensor engine, so
two calls of either entry point differing only in the scale flag return
identical results for every input — the running enrichment curve is never
divided by the gene-list length at these entry points. -/
theorem gsea_compute_scale_dead (rng : ℕ → ℕ → ℕ → List ℕ) (sqrtFn log2Fn : ℚ → ℚ)
    (data : GSEAData) (gmt : List (ℕ × List ℕ)) (n p : ℕ) (phen : Bool)
    (method : RankMethod) (pp pn : ℕ) (classes : List ℕ) (asc prerank : Bool)
    (genes : List ℕ) (vals : List ℚ) (seed : ℕ) (scale1 scale2 : Bool) :
    gsea_compute data gmt n p phen method pp pn classes asc seed scale1 prerank rng sqrtFn log2Fn
      = gsea_compute data gmt n p phen method pp pn classes asc seed scale2 prerank rng sqrtFn log2Fn ∧
    gsea_compute_ss genes vals gmt n p scale1 seed rng
      = gsea_compute_ss genes vals gmt n p scale2 seed rng :=
  ⟨rfl, rfl⟩

end
